import Mathlib

set_option linter.unusedVariables false

/-!
Verification development for the nrfmodule-sdk serial-modem core:
the AT-client command channel with its line classifier and monitor
registry (src/include/sm_at_client.h) and the modem power management
layer (src/include/sm_modem_power_mgmt.h).

The repository ships the public headers; the translation below takes the
enumerations, constants and inline functions directly from those headers,
and models the behavior of the compiled units (line classification,
command-channel sequencing, monitor dispatch, power-state transitions)
from the design document, as marked on each definition.
-/

namespace NrfModule

/-- AT command result codes, from `enum at_cmd_state` in
src/include/sm_at_client.h (lines 37-43). -/
inductive at_cmd_state
  | AT_CMD_OK
  | AT_CMD_ERROR
  | AT_CMD_ERROR_CMS
  | AT_CMD_ERROR_CME
  | AT_CMD_PENDING
deriving DecidableEq, Repr

/-- Max size of AT command response is 2100 bytes
(src/include/sm_at_client.h line 32). -/
def SM_AT_CMD_RESPONSE_MAX_LEN : Nat := 2100

/-- Monitor is paused (src/include/sm_at_client.h line 165). -/
def MON_PAUSED : Nat := 1

/-- Monitor is active, default (src/include/sm_at_client.h line 167). -/
def MON_ACTIVE : Nat := 0

/-- Modelled from the spec: `ResponseClassification` of the Line
Classifier (design document section 3), one of OK, ERROR, CMS-ERROR(code),
CME-ERROR(code), PENDING. The classifier implementation is not shipped
under src/, only the header that declares its result enum. -/
inductive ResponseClassification
  | ok
  | error
  | cmsError (code : Nat)
  | cmeError (code : Nat)
  | pending
deriving DecidableEq, Repr

/-- The header enum value corresponding to a classification. -/
def toCmdState : ResponseClassification → at_cmd_state
  | .ok => .AT_CMD_OK
  | .error => .AT_CMD_ERROR
  | .cmsError _ => .AT_CMD_ERROR_CMS
  | .cmeError _ => .AT_CMD_ERROR_CME
  | .pending => .AT_CMD_PENDING

/-- Numeric value of a decimal digit character. -/
def digitVal (c : Char) : Nat := c.toNat - 48

/-- Decimal value of a digit string. -/
def digitsVal (l : List Char) : Nat := l.foldl (fun a c => a * 10 + digitVal c) 0

/-- Modelled from the spec: parse the numeric code `<n>` following a
`+CME ERROR: ` or `+CMS ERROR: ` token (design document section 4.1). -/
def parseCode (l : List Char) : Option Nat :=
  if l ≠ [] ∧ l.all Char.isDigit = true then some (digitsVal l) else none

/-- Boolean test that `line` starts with the text `filt`. -/
def textStartsWith : List Char → List Char → Bool
  | _, [] => true
  | [], _ :: _ => false
  | a :: as, f :: fs => a == f && textStartsWith as fs

/-- The terminal token `OK`. -/
def okToken : List Char := ['O', 'K']

/-- The terminal token `ERROR`. -/
def errorToken : List Char := ['E', 'R', 'R', 'O', 'R']

/-- The terminal token head `+CME ERROR: `. -/
def cmeHeader : List Char :=
  ['+', 'C', 'M', 'E', ' ', 'E', 'R', 'R', 'O', 'R', ':', ' ']

/-- The terminal token head `+CMS ERROR: `. -/
def cmsHeader : List Char :=
  ['+', 'C', 'M', 'S', ' ', 'E', 'R', 'R', 'O', 'R', ':', ' ']

/-- Modelled from the spec: the Line Classifier's per-line terminality
test (design document section 4.1); the classifier source is not under
src/. A line is terminal when it is `OK`, `ERROR`, or carries a
`+CME ERROR: <n>` or `+CMS ERROR: <n>` token; anything else is PENDING
(a continuation or notification candidate). -/
def classifyLine (l : List Char) : ResponseClassification :=
  if l = okToken then .ok
  else if l = errorToken then .error
  else if textStartsWith l cmeHeader then
    match parseCode (l.drop cmeHeader.length) with
    | some n => .cmeError n
    | none => .pending
  else if textStartsWith l cmsHeader then
    match parseCode (l.drop cmsHeader.length) with
    | some n => .cmsError n
    | none => .pending
  else .pending

/-- Serial Modem monitor entry, from `struct sm_monitor_entry` in
src/include/sm_at_client.h (lines 153-160): a filter (`NULL` = `MON_ANY`
wildcard, modelled as `none`), a handler reference (modelled as an opaque
identifier), and a paused flag (a `uint8_t`, written only with
`MON_PAUSED` = 1 and `MON_ACTIVE` = 0). -/
structure sm_monitor_entry where
  filter : Option (List Char)
  handler : Nat
  paused : Nat
deriving DecidableEq, Repr

/-- Pause monitor, from the inline `sm_monitor_pause` in
src/include/sm_at_client.h (lines 194-197): `mon->paused = MON_PAUSED`. -/
def sm_monitor_pause (mon : sm_monitor_entry) : sm_monitor_entry :=
  { mon with paused := MON_PAUSED }

/-- Resume monitor, from the inline `sm_monitor_resume` in
src/include/sm_at_client.h (lines 206-209): `mon->paused = MON_ACTIVE`. -/
def sm_monitor_resume (mon : sm_monitor_entry) : sm_monitor_entry :=
  { mon with paused := MON_ACTIVE }

/-- Modelled from the spec: the filter match test of the Monitor Registry
(design document section 4.3); the dispatch source is not under src/. An
entry matches when its filter is the wildcard or the notification line
starts with the filter text. -/
def monitorMatches (e : sm_monitor_entry) (line : List Char) : Bool :=
  match e.filter with
  | none => true
  | some f => textStartsWith line f

/-- Modelled from the spec: the dispatch algorithm of the Monitor
Registry (design document section 4.3); the dispatch source is not under
src/. Entries are visited in registration order; every unpaused matching
entry's handler is invoked with the raw notification line; there is no
early termination. The result lists the (handler, line) invocations in
order. -/
def monitorDispatch : List sm_monitor_entry → List Char → List (Nat × List Char)
  | [], _ => []
  | e :: es, line =>
      (if e.paused = MON_ACTIVE ∧ monitorMatches e line = true
       then [(e.handler, line)] else [])
      ++ monitorDispatch es line

/-- Power state of the modem, per `sm_modem_power_mgmt_get_state`
(src/include/sm_modem_power_mgmt.h lines 65-70: 0=UNKNOWN, 1=AWAKE,
2=IDLE). -/
inductive PowerState
  | unknown
  | awake
  | idle
deriving DecidableEq, Repr

/-- Observable actions the power layer performs through the transport, in
order: the wake handshake, its fixed settle delay, forwarding a caller
command (with the caller's timeout), and issuing the logical sleep
command. -/
inductive PmAction
  | wakeHandshake
  | settleDelay
  | forward (cmd : List Char) (timeoutS : Nat)
  | sleepCmd
deriving DecidableEq, Repr

/-- Modelled from the spec: the Power State Machine's state (design
document section 4.5); the sm_modem_power_mgmt source is not under src/.
`inactivity = none` models `K_NO_WAIT` (auto-sleep disabled). `log` is
the ordered trace of actions issued through the Command Channel. -/
structure PmState where
  st : PowerState
  inactivity : Option Nat
  timerArmed : Bool
  log : List PmAction
deriving DecidableEq, Repr

/-- The Command Channel's result for one blocking send, as seen by its
caller: a terminal classification, the timeout error (`-EAGAIN`), the
busy error, or the invalid-argument error. -/
inductive CmdOutcome
  | classified (c : ResponseClassification)
  | timedOut
  | busy
  | invalidArgument
deriving DecidableEq, Repr

/-- Result of `sm_modem_power_mgmt_send_at`: either the distinct
wake-handshake failure, or the Command Channel's result passed through. -/
inductive PmResult
  | wakeFailed
  | channel (r : CmdOutcome)
deriving DecidableEq, Repr

/-- Modelled from the spec: `sm_modem_power_mgmt_init` (header lines
24-35; design document section 4.5): state UNKNOWN, no timer armed,
inactivity duration recorded. -/
def sm_modem_power_mgmt_init (inactivity : Option Nat) : PmState :=
  { st := .unknown, inactivity := inactivity, timerArmed := false, log := [] }

/-- Modelled from the spec: `sm_modem_power_mgmt_send_at` (header lines
37-53; design document section 4.5); the implementation is not under
src/. If the state is IDLE the wake handshake and settle delay come
first; a wake failure is surfaced as the distinct `wakeFailed` error
without forwarding. Otherwise the state becomes AWAKE, the command is
forwarded with the caller's timeout, the inactivity timer is re-armed
(when auto-sleep is enabled) and the Command Channel's result `chResult`
(chosen by the environment) is returned unchanged. -/
def sm_modem_power_mgmt_send_at (s : PmState) (cmd : List Char) (timeoutS : Nat)
    (wakeOk : Bool) (chResult : CmdOutcome) : PmResult × PmState :=
  if s.st = .idle then
    if wakeOk then
      (.channel chResult,
        { s with st := .awake, timerArmed := s.inactivity.isSome,
                 log := s.log ++ [PmAction.wakeHandshake, PmAction.settleDelay,
                                  PmAction.forward cmd timeoutS] })
    else (.wakeFailed, s)
  else
    (.channel chResult,
      { s with st := .awake, timerArmed := s.inactivity.isSome,
               log := s.log ++ [PmAction.forward cmd timeoutS] })

/-- Modelled from the spec: the inactivity-timer fire (design document
sections 4.5 and 5); the implementation is not under src/. When the
timer is armed and the Command Channel is free, issue the logical sleep
command (best effort) and set state IDLE; when the channel is busy the
sleep is skipped and the timer stays armed to retry. -/
def pm_timer_fire (s : PmState) (channelBusy : Bool) : PmState :=
  if s.timerArmed then
    if channelBusy then s
    else { s with st := .idle, timerArmed := false, log := s.log ++ [.sleepCmd] }
  else s

/-- Modelled from the spec: `sm_modem_power_mgmt_sleep` (header lines
56-63; design document section 4.5); the implementation is not under
src/. Cancels the inactivity timer and immediately issues the logical
sleep command regardless of current state; sets state IDLE. -/
def sm_modem_power_mgmt_sleep (s : PmState) : PmState :=
  { s with st := .idle, timerArmed := false, log := s.log ++ [.sleepCmd] }

/-- `sm_modem_power_mgmt_get_state` (header lines 65-70): 0=UNKNOWN,
1=AWAKE, 2=IDLE. -/
def sm_modem_power_mgmt_get_state (s : PmState) : Int :=
  match s.st with
  | .unknown => 0
  | .awake => 1
  | .idle => 2

/-- One step of the Power State Machine: a caller send, a timer fire, or
a manual sleep request. -/
inductive PmEvent
  | sendAt (cmd : List Char) (timeoutS : Nat) (wakeOk : Bool) (chResult : CmdOutcome)
  | timerFire (channelBusy : Bool)
  | sleepReq
deriving DecidableEq, Repr

/-- State reached after one Power State Machine event. -/
def pmStep (s : PmState) (e : PmEvent) : PmState :=
  match e with
  | .sendAt cmd t w r => (sm_modem_power_mgmt_send_at s cmd t w r).2
  | .timerFire b => pm_timer_fire s b
  | .sleepReq => sm_modem_power_mgmt_sleep s

/-- The transition edges asserted by the design document's PowerState
invariant (section 3): (UNKNOWN|IDLE)→AWAKE on send, AWAKE→IDLE on
inactivity timeout or manual sleep request. -/
def claimedEdge : PowerState → PowerState → Bool
  | .unknown, .awake => true
  | .idle, .awake => true
  | .awake, .idle => true
  | _, _ => false

/-- The transition edges the modelled operations actually realize: the
claimed ones plus UNKNOWN→IDLE, reachable by a manual sleep request (or a
timer fire) before any command was ever sent. -/
def amendedEdge : PowerState → PowerState → Bool
  | .unknown, .awake => true
  | .idle, .awake => true
  | .awake, .idle => true
  | .unknown, .idle => true
  | _, _ => false

/-- Number of logical sleep commands in an action trace. -/
def countSleep : List PmAction → Nat
  | [] => 0
  | .sleepCmd :: r => countSleep r + 1
  | _ :: r => countSleep r

/-- Modelled from the spec: `PendingCommand` (design document section 3):
command text, caller timeout (seconds, 0 = infinite wait per the header of
`sm_at_client_send_cmd`), a fresh sequence identifier, and the absolute
deadline derived from the timeout (`none` when waiting indefinitely). -/
structure PendingCommand where
  text : List Char
  timeoutS : Nat
  seqId : Nat
  deadline : Option Nat
deriving DecidableEq, Repr

/-- How a PendingCommand's waiter was released: with the terminal line's
classification, or with the timeout error. -/
inductive Resolution
  | classified (c : ResponseClassification)
  | timedOut
deriving DecidableEq, Repr

/-- Modelled from the spec: the Command Channel's state (design document
sections 4.2 and 5); the implementation is not under src/. `now` is the
current time in seconds; `transmitted` logs every line written to the
transport; `resolutions` is the append-only log of how each issued
command's waiter was released, as (sequence id, resolution, time);
`issued` records each started command's (sequence id, timeout). -/
structure ChannelState where
  initialized : Bool
  now : Nat
  pending : Option PendingCommand
  nextSeq : Nat
  transmitted : List (List Char)
  resolutions : List (Nat × Resolution × Nat)
  issued : List (Nat × Nat)
deriving DecidableEq, Repr

/-- Immediate outcome of a `send_cmd` call: the command was started and
its caller now blocks on the given sequence id, or the call was rejected
with the busy or invalid-argument error. -/
inductive SendResult
  | started (seqId : Nat)
  | busy
  | invalidArgument
deriving DecidableEq, Repr

/-- The line terminator the Command Channel appends to submitted command
text (design document section 6). -/
def lineTerminator : List Char := ['\r']

/-- Modelled from the spec: `sm_at_client_send_cmd` issuance (header
lines 118-131; design document section 4.2); the implementation is not
under src/. Fails with `invalidArgument` when the channel is not
initialized, with `busy` when a command is already outstanding;
otherwise transmits the text plus the line terminator and registers a
PendingCommand with a fresh sequence id, whose deadline is absent when
the timeout is zero (infinite wait). -/
def sm_at_client_send_cmd (st : ChannelState) (command : List Char)
    (timeoutS : Nat) : SendResult × ChannelState :=
  if st.initialized = false then (.invalidArgument, st)
  else
    match st.pending with
    | some _ => (.busy, st)
    | none =>
        (.started st.nextSeq,
          { st with
            pending := some
              { text := command, timeoutS := timeoutS, seqId := st.nextSeq,
                deadline := if timeoutS = 0 then none
                            else some (st.now + timeoutS) },
            nextSeq := st.nextSeq + 1,
            transmitted := st.transmitted ++ [command ++ lineTerminator],
            issued := st.issued ++ [(st.nextSeq, timeoutS)] })

/-- Modelled from the spec: delivery of one complete line by the Line
Classifier (design document sections 4.1 and 5); the implementation is
not under src/. `ansSeq` is the sequence id of the command the line
answers; the line resolves the outstanding PendingCommand only when that
id equals the currently outstanding one and the line is terminal; a
non-matching (stale) or non-terminal line, or a line arriving with no
command pending, leaves the channel unchanged (it is only a notification
candidate). -/
def lineArrives (st : ChannelState) (content : List Char) (ansSeq : Nat) :
    ChannelState :=
  match st.pending with
  | none => st
  | some p =>
      if ansSeq = p.seqId then
        match classifyLine content with
        | .pending => st
        | c =>
            { st with pending := none,
                      resolutions := st.resolutions
                        ++ [(p.seqId, .classified c, st.now)] }
      else st

/-- Modelled from the spec: the passage of `dt` seconds (design document
section 4.2); the implementation is not under src/. When the outstanding
command's deadline falls within the elapsed interval its waiter is
released with `timedOut` and the sequence id is invalidated (pending
cleared) in the same step; a command issued with timeout zero has no
deadline and never times out. -/
def chTick (st : ChannelState) (dt : Nat) : ChannelState :=
  match st.pending with
  | none => { st with now := st.now + dt }
  | some p =>
      match p.deadline with
      | none => { st with now := st.now + dt }
      | some d =>
          if d ≤ st.now + dt then
            { st with now := st.now + dt, pending := none,
                      resolutions := st.resolutions
                        ++ [(p.seqId, .timedOut, st.now + dt)] }
          else { st with now := st.now + dt }

/-- Events driving the Command Channel: a caller issuing `send_cmd`, the
transport delivering a complete line, or time passing. -/
inductive ChEvent
  | send (command : List Char) (timeoutS : Nat)
  | line (content : List Char) (ansSeq : Nat)
  | tick (dt : Nat)
deriving DecidableEq, Repr

/-- State reached after one Command Channel event. -/
def chStep (st : ChannelState) (e : ChEvent) : ChannelState :=
  match e with
  | .send c t => (sm_at_client_send_cmd st c t).2
  | .line c n => lineArrives st c n
  | .tick dt => chTick st dt

/-- State reached after a sequence of Command Channel events. -/
def chRun (st : ChannelState) (es : List ChEvent) : ChannelState :=
  es.foldl chStep st

/-- The freshly initialized Command Channel. -/
def chInit : ChannelState :=
  { initialized := true, now := 0, pending := none, nextSeq := 0,
    transmitted := [], resolutions := [], issued := [] }

/-- Invariant of the Command Channel: sequence ids are allocated
monotonically, the outstanding command's id was never resolved, issued
ids are unambiguous, the outstanding command is recorded in `issued` with
a deadline exactly when its timeout is nonzero, and every timed-out
resolution belongs to a command issued with a strictly positive
timeout. -/
def chInv (st : ChannelState) : Prop :=
  (∀ p, st.pending = some p → p.seqId < st.nextSeq) ∧
  (∀ r ∈ st.resolutions, r.1 < st.nextSeq) ∧
  (∀ p, st.pending = some p → ∀ r ∈ st.resolutions, r.1 ≠ p.seqId) ∧
  (∀ i ∈ st.issued, i.1 < st.nextSeq) ∧
  (∀ a ∈ st.issued, ∀ b ∈ st.issued, a.1 = b.1 → a.2 = b.2) ∧
  (∀ p, st.pending = some p →
     (p.seqId, p.timeoutS) ∈ st.issued ∧ (p.deadline = none ↔ p.timeoutS = 0)) ∧
  (∀ r ∈ st.resolutions, r.2.1 = Resolution.timedOut →
     ∃ t, (r.1, t) ∈ st.issued ∧ 0 < t)

/-- Modelled from the spec: accumulation of received bytes into the
response buffer delivered to the data handler; the implementation is not
under src/, and the header documents the max size of an AT command
response as `SM_AT_CMD_RESPONSE_MAX_LEN` = 2100 bytes, so the buffer
accepts a byte only while below that capacity. -/
def responseAppend (buf : List Char) (b : Char) : List Char :=
  if buf.length < SM_AT_CMD_RESPONSE_MAX_LEN then buf ++ [b] else buf

/-- Response buffer produced from a received byte stream. -/
def responseAccumulate (bytes : List Char) : List Char :=
  bytes.foldl responseAppend []

/-- The example monitor filter `+CREG`. -/
def cregFilter : List Char := ['+', 'C', 'R', 'E', 'G']

/-- The example notification `+CREG: 1,5`. -/
def cregNotif : List Char :=
  ['+', 'C', 'R', 'E', 'G', ':', ' ', '1', ',', '5']

/-- The example notification `+CEREG: 1,5`. -/
def ceregNotif : List Char :=
  ['+', 'C', 'E', 'R', 'E', 'G', ':', ' ', '1', ',', '5']

/-- The example command `AT+CFUN=1`. -/
def atCfunCmd : List Char := ['A', 'T', '+', 'C', 'F', 'U', 'N', '=', '1']

theorem chInv_chInit : chInv chInit := by
  refine ⟨?_, ?_, ?_, ?_, ?_, ?_, ?_⟩ <;> simp [chInit, chInv]

theorem chInv_send (st : ChannelState) (c : List Char) (t : Nat) (h : chInv st) :
    chInv (sm_at_client_send_cmd st c t).2 := by
  obtain ⟨h1, h2, h3, h4, h5, h6, h7⟩ := h
  unfold sm_at_client_send_cmd
  split
  · exact ⟨h1, h2, h3, h4, h5, h6, h7⟩
  split
  · exact ⟨h1, h2, h3, h4, h5, h6, h7⟩
  refine ⟨?_, ?_, ?_, ?_, ?_, ?_, ?_⟩
  · intro p hp
    rw [Option.some.injEq] at hp
    subst hp
    exact Nat.lt_succ_self _
  · intro r hr
    exact Nat.lt_succ_of_lt (h2 r hr)
  · intro p hp r hr
    rw [Option.some.injEq] at hp
    subst hp
    have := h2 r hr
    simp only []
    omega
  · intro i hi
    rcases List.mem_append.mp hi with hold | hnew
    · exact Nat.lt_succ_of_lt (h4 i hold)
    · rw [List.mem_singleton] at hnew
      subst hnew
      exact Nat.lt_succ_self _
  · intro a ha b hb hab
    rcases List.mem_append.mp ha with ha | ha <;>
      rcases List.mem_append.mp hb with hb | hb
    · exact h5 a ha b hb hab
    · rw [List.mem_singleton] at hb
      subst hb
      exact absurd hab (Nat.ne_of_lt (h4 a ha))
    · rw [List.mem_singleton] at ha
      subst ha
      exact absurd hab.symm (Nat.ne_of_lt (h4 b hb))
    · rw [List.mem_singleton] at ha hb
      subst ha
      subst hb
      rfl
  · intro p hp
    rw [Option.some.injEq] at hp
    subst hp
    constructor
    · exact List.mem_append_right _ (List.mem_singleton.mpr rfl)
    · constructor
      · intro hdl
        by_contra ht0
        rw [if_neg ht0] at hdl
        exact Option.some_ne_none _ hdl
      · intro ht0
        rw [if_pos ht0]
  · intro r hr hto
    obtain ⟨t', ht', htpos⟩ := h7 r hr hto
    exact ⟨t', List.mem_append_left _ ht', htpos⟩

theorem chInv_line (st : ChannelState) (c : List Char) (n : Nat) (h : chInv st) :
    chInv (lineArrives st c n) := by
  obtain ⟨h1, h2, h3, h4, h5, h6, h7⟩ := h
  unfold lineArrives
  split
  · exact ⟨h1, h2, h3, h4, h5, h6, h7⟩
  rename_i p hp
  split
  · rename_i hn
    split
    · exact ⟨h1, h2, h3, h4, h5, h6, h7⟩
    all_goals {
      refine ⟨?_, ?_, ?_, ?_, ?_, ?_, ?_⟩
      · intro q hq
        exact absurd hq (by simp)
      · intro r hr
        rcases List.mem_append.mp hr with hold | hnew
        · exact h2 r hold
        · rw [List.mem_singleton] at hnew
          subst hnew
          exact h1 p hp
      · intro q hq
        exact absurd hq (by simp)
      · exact h4
      · exact h5
      · intro q hq
        exact absurd hq (by simp)
      · intro r hr hto
        rcases List.mem_append.mp hr with hold | hnew
        · exact h7 r hold hto
        · rw [List.mem_singleton] at hnew
          subst hnew
          exact absurd hto (by simp)
    }
  · exact ⟨h1, h2, h3, h4, h5, h6, h7⟩

theorem chInv_tick (st : ChannelState) (dt : Nat) (h : chInv st) :
    chInv (chTick st dt) := by
  obtain ⟨h1, h2, h3, h4, h5, h6, h7⟩ := h
  unfold chTick
  split
  · exact ⟨h1, h2, h3, h4, h5, h6, h7⟩
  rename_i p hp
  split
  · exact ⟨h1, h2, h3, h4, h5, h6, h7⟩
  rename_i d hd
  split
  · refine ⟨?_, ?_, ?_, ?_, ?_, ?_, ?_⟩
    · intro q hq
      exact absurd hq (by simp)
    · intro r hr
      rcases List.mem_append.mp hr with hold | hnew
      · exact h2 r hold
      · rw [List.mem_singleton] at hnew
        subst hnew
        exact h1 p hp
    · intro q hq
      exact absurd hq (by simp)
    · exact h4
    · exact h5
    · intro q hq
      exact absurd hq (by simp)
    · intro r hr hto
      rcases List.mem_append.mp hr with hold | hnew
      · exact h7 r hold hto
      · rw [List.mem_singleton] at hnew
        subst hnew
        obtain ⟨hmem, hiff⟩ := h6 p hp
        refine ⟨p.timeoutS, hmem, ?_⟩
        have : p.timeoutS ≠ 0 := by
          intro h0
          have := hiff.mpr h0
          rw [hd] at this
          exact Option.some_ne_none _ this
        omega
  · exact ⟨h1, h2, h3, h4, h5, h6, h7⟩

theorem chInv_step (st : ChannelState) (e : ChEvent) (h : chInv st) :
    chInv (chStep st e) := by
  cases e with
  | send c t => exact chInv_send st c t h
  | line c n => exact chInv_line st c n h
  | tick dt => exact chInv_tick st dt h

theorem chInv_run (st : ChannelState) (es : List ChEvent) (h : chInv st) :
    chInv (chRun st es) := by
  induction es generalizing st with
  | nil => exact h
  | cons e es ih => exact ih (chStep st e) (chInv_step st e h)

theorem textStartsWith_append (f rest : List Char) :
    textStartsWith (f ++ rest) f = true := by
  induction f with
  | nil => cases rest <;> rfl
  | cons a as ih => simp [textStartsWith, ih]

theorem classifyLine_ok : classifyLine okToken = ResponseClassification.ok := by
  decide

theorem classifyLine_cme (ds : List Char) (hne : ds ≠ [])
    (hdig : ds.all Char.isDigit = true) :
    classifyLine (cmeHeader ++ ds) =
      ResponseClassification.cmeError (digitsVal ds) := by
  have hlen : 12 ≤ (cmeHeader ++ ds).length := by
    rw [List.length_append]
    have : cmeHeader.length = 12 := by decide
    omega
  have hok : cmeHeader ++ ds ≠ okToken := by
    intro hcontra
    have := congrArg List.length hcontra
    have hok2 : okToken.length = 2 := by decide
    omega
  have herr : cmeHeader ++ ds ≠ errorToken := by
    intro hcontra
    have := congrArg List.length hcontra
    have herr5 : errorToken.length = 5 := by decide
    omega
  unfold classifyLine
  rw [if_neg hok, if_neg herr, if_pos (textStartsWith_append cmeHeader ds)]
  have hdrop : (cmeHeader ++ ds).drop cmeHeader.length = ds := by
    exact List.drop_left cmeHeader ds
  rw [hdrop]
  unfold parseCode
  rw [if_pos ⟨hne, hdig⟩]

theorem monitorDispatch_append (xs ys : List sm_monitor_entry)
    (line : List Char) :
    monitorDispatch (xs ++ ys) line =
      monitorDispatch xs line ++ monitorDispatch ys line := by
  induction xs with
  | nil => rfl
  | cons e es ih => simp [monitorDispatch, ih]

/-- C1: for every valid command text and every timeout > 0, calling
`sm_at_client_send_cmd` while another command is already outstanding
returns the busy error and leaves the channel state — hence the
outstanding command's eventual resolution (its result and release time,
under any continuation of events) — completely unchanged. -/
theorem send_cmd_busy_unchanged (st : ChannelState) (text : List Char)
    (t : Nat) (p : PendingCommand) (hinit : st.initialized = true)
    (hp : st.pending = some p) (hv : text ≠ []) (ht : 0 < t) :
    (sm_at_client_send_cmd st text t).1 = SendResult.busy ∧
    (sm_at_client_send_cmd st text t).2 = st ∧
    ∀ es : List ChEvent,
      (chRun (sm_at_client_send_cmd st text t).2 es).resolutions =
        (chRun st es).resolutions := by
  have hbase : sm_at_client_send_cmd st text t = (SendResult.busy, st) := by
    unfold sm_at_client_send_cmd
    rw [hinit, hp]
    rfl
  refine ⟨?_, ?_, ?_⟩
  · rw [hbase]
  · rw [hbase]
  · intro es
    rw [hbase]

/-- C1 witness: with a command already outstanding on the channel, a
second send of a valid text with timeout 7 is rejected busy with the
state unchanged. -/
theorem send_cmd_busy_unchanged_witness :
    (sm_at_client_send_cmd (chStep chInit (ChEvent.send ['A', 'T'] 5))
        ['A', 'T'] 7).1 = SendResult.busy ∧
    (sm_at_client_send_cmd (chStep chInit (ChEvent.send ['A', 'T'] 5))
        ['A', 'T'] 7).2 = chStep chInit (ChEvent.send ['A', 'T'] 5) :=
  ⟨(send_cmd_busy_unchanged (chStep chInit (ChEvent.send ['A', 'T'] 5))
      ['A', 'T'] 7 ⟨['A', 'T'], 5, 0, some 5⟩ (by decide) (by decide)
      (by decide) (by decide)).1,
   (send_cmd_busy_unchanged (chStep chInit (ChEvent.send ['A', 'T'] 5))
      ['A', 'T'] 7 ⟨['A', 'T'], 5, 0, some 5⟩ (by decide) (by decide)
      (by decide) (by decide)).2.1⟩

/-- C2: a terminal line answering a command that was already resolved as
timed out is discarded: the classifier attributes a line to the
outstanding command only when the line's sequence id equals the current
one, a timed-out id never equals the currently outstanding id in any
reachable state, and delivering such a stale line leaves the channel —
and hence every subsequently issued command's resolution — unchanged. -/
theorem stale_timedout_line_discarded (es : List ChEvent) (n tr : Nat)
    (content : List Char)
    (h : (n, Resolution.timedOut, tr) ∈ (chRun chInit es).resolutions) :
    (∀ (st : ChannelState) (c : List Char) (m : Nat) (p : PendingCommand),
      st.pending = some p → m ≠ p.seqId → lineArrives st c m = st) ∧
    (∀ p, (chRun chInit es).pending = some p → n ≠ p.seqId) ∧
    chStep (chRun chInit es) (ChEvent.line content n) = chRun chInit es := by
  obtain ⟨h1, h2, h3, h4, h5, h6, h7⟩ := chInv_run chInit es chInv_chInit
  have hgen : ∀ (st : ChannelState) (c : List Char) (m : Nat)
      (p : PendingCommand),
      st.pending = some p → m ≠ p.seqId → lineArrives st c m = st := by
    intro st c m p hp hm
    simp [lineArrives, hp, hm]
  have hne : ∀ p, (chRun chInit es).pending = some p → n ≠ p.seqId := by
    intro p hp
    exact h3 p hp (n, Resolution.timedOut, tr) h
  refine ⟨hgen, hne, ?_⟩
  show lineArrives (chRun chInit es) content n = chRun chInit es
  cases hp : (chRun chInit es).pending with
  | none => simp [lineArrives, hp]
  | some p => exact hgen (chRun chInit es) content n p hp (hne p hp)

/-- C2 witness: after a command times out (send with timeout 1, then one
second elapses), a late `OK` answering it is discarded: the channel state
is unchanged by its delivery. -/
theorem stale_timedout_line_discarded_witness :
    chStep (chRun chInit [ChEvent.send ['A', 'T'] 1, ChEvent.tick 1])
        (ChEvent.line okToken 0) =
      chRun chInit [ChEvent.send ['A', 'T'] 1, ChEvent.tick 1] :=
  (stale_timedout_line_discarded [ChEvent.send ['A', 'T'] 1, ChEvent.tick 1]
    0 1 okToken (by decide)).2.2

/-- C3: a started command is transmitted with the line terminator
appended; while it is pending, delivery of the terminal line `OK`
releases its waiter with the OK classification at the current time;
passage of time beyond its deadline releases the waiter with the timeout
error; and delivery of `+CME ERROR: <n>` releases the waiter with the CME
protocol error carrying the numeric code `n` (the decimal value of the
digit string). -/
theorem send_cmd_end_to_end (st : ChannelState) (text : List Char) (t : Nat) :
    (st.initialized = true → st.pending = none →
      (sm_at_client_send_cmd st text t).2.transmitted =
        st.transmitted ++ [text ++ lineTerminator]) ∧
    (∀ p, st.pending = some p →
      (lineArrives st okToken p.seqId).resolutions =
        st.resolutions ++
          [(p.seqId, Resolution.classified ResponseClassification.ok,
            st.now)]) ∧
    (∀ p d dt, st.pending = some p → p.deadline = some d → d ≤ st.now + dt →
      (chTick st dt).resolutions =
        st.resolutions ++ [(p.seqId, Resolution.timedOut, st.now + dt)]) ∧
    (∀ p ds, st.pending = some p → ds ≠ [] → ds.all Char.isDigit = true →
      (lineArrives st (cmeHeader ++ ds) p.seqId).resolutions =
        st.resolutions ++
          [(p.seqId,
            Resolution.classified
              (ResponseClassification.cmeError (digitsVal ds)), st.now)]) := by
  refine ⟨?_, ?_, ?_, ?_⟩
  · intro hinit hpn
    unfold sm_at_client_send_cmd
    rw [hinit, hpn]
    rfl
  · intro p hp
    simp [lineArrives, hp, classifyLine_ok]
  · intro p d dt hp hd hle
    simp [chTick, hp, hd, hle]
  · intro p ds hp hne hdig
    simp [lineArrives, hp, classifyLine_cme ds hne hdig]

/-- C3 witness: sending `AT+CFUN=1` with timeout 10 transmits the text
plus terminator; while pending, an `OK` resolves it OK, ten seconds
without a terminal line resolve it timed out, and `+CME ERROR: 3`
resolves it with CME code 3. -/
theorem send_cmd_end_to_end_witness :
    (sm_at_client_send_cmd chInit atCfunCmd 10).2.transmitted =
      chInit.transmitted ++ [atCfunCmd ++ lineTerminator] ∧
    (lineArrives (chRun chInit [ChEvent.send atCfunCmd 10]) okToken
        (PendingCommand.mk atCfunCmd 10 0 (some 10)).seqId).resolutions =
      (chRun chInit [ChEvent.send atCfunCmd 10]).resolutions ++
        [((PendingCommand.mk atCfunCmd 10 0 (some 10)).seqId,
          Resolution.classified ResponseClassification.ok,
          (chRun chInit [ChEvent.send atCfunCmd 10]).now)] ∧
    (chTick (chRun chInit [ChEvent.send atCfunCmd 10]) 10).resolutions =
      (chRun chInit [ChEvent.send atCfunCmd 10]).resolutions ++
        [((PendingCommand.mk atCfunCmd 10 0 (some 10)).seqId,
          Resolution.timedOut,
          (chRun chInit [ChEvent.send atCfunCmd 10]).now + 10)] ∧
    (lineArrives (chRun chInit [ChEvent.send atCfunCmd 10])
        (cmeHeader ++ ['3'])
        (PendingCommand.mk atCfunCmd 10 0 (some 10)).seqId).resolutions =
      (chRun chInit [ChEvent.send atCfunCmd 10]).resolutions ++
        [((PendingCommand.mk atCfunCmd 10 0 (some 10)).seqId,
          Resolution.classified
            (ResponseClassification.cmeError (digitsVal ['3'])),
          (chRun chInit [ChEvent.send atCfunCmd 10]).now)] :=
  ⟨(send_cmd_end_to_end chInit atCfunCmd 10).1 (by decide) (by decide),
   (send_cmd_end_to_end (chRun chInit [ChEvent.send atCfunCmd 10])
      atCfunCmd 10).2.1 (PendingCommand.mk atCfunCmd 10 0 (some 10))
      (by decide),
   (send_cmd_end_to_end (chRun chInit [ChEvent.send atCfunCmd 10])
      atCfunCmd 10).2.2.1 (PendingCommand.mk atCfunCmd 10 0 (some 10))
      10 10 (by decide) (by decide) (by decide),
   (send_cmd_end_to_end (chRun chInit [ChEvent.send atCfunCmd 10])
      atCfunCmd 10).2.2.2 (PendingCommand.mk atCfunCmd 10 0 (some 10))
      ['3'] (by decide) (by decide) (by decide)⟩

/-- C9: a command issued with timeout 0 is never released with the
timeout error, in any run of the channel (the zero timeout means an
indefinite wait); and the power-managed send forwards the caller's
command with the caller's timeout unchanged, so the same semantics
applies through `sm_modem_power_mgmt_send_at`. -/
theorem timeout_zero_waits_forever (es : List ChEvent) (n : Nat)
    (h0 : (n, 0) ∈ (chRun chInit es).issued) :
    (∀ tr, (n, Resolution.timedOut, tr) ∉ (chRun chInit es).resolutions) ∧
    (∀ (s : PmState) (cmd : List Char) (t : Nat) (chRes : CmdOutcome),
      s.st = PowerState.idle →
      ((sm_modem_power_mgmt_send_at s cmd t true chRes).2).log =
        s.log ++ [PmAction.wakeHandshake, PmAction.settleDelay,
                  PmAction.forward cmd t]) ∧
    (∀ (s : PmState) (cmd : List Char) (t : Nat) (wakeOk : Bool)
        (chRes : CmdOutcome),
      s.st ≠ PowerState.idle →
      ((sm_modem_power_mgmt_send_at s cmd t wakeOk chRes).2).log =
        s.log ++ [PmAction.forward cmd t]) := by
  obtain ⟨h1, h2, h3, h4, h5, h6, h7⟩ := chInv_run chInit es chInv_chInit
  refine ⟨?_, ?_, ?_⟩
  · intro tr hmem
    obtain ⟨t', ht', htpos⟩ :=
      h7 (n, Resolution.timedOut, tr) hmem rfl
    have := h5 (n, 0) h0 (n, t') ht' rfl
    omega
  · intro s cmd t chRes hidle
    unfold sm_modem_power_mgmt_send_at
    rw [if_pos hidle]
    rfl
  · intro s cmd t wakeOk chRes hnidle
    unfold sm_modem_power_mgmt_send_at
    rw [if_neg hnidle]

/-- C9 witness: the command issued with timeout 0 (sequence id 0) is not
resolved as timed out. -/
theorem timeout_zero_waits_forever_witness :
    (0, Resolution.timedOut, 3) ∉
      (chRun chInit [ChEvent.send ['A', 'T'] 0]).resolutions :=
  (timeout_zero_waits_forever [ChEvent.send ['A', 'T'] 0] 0 (by decide)).1 3

/-- C4 counterexample: the claim that the power state changes only along
init→UNKNOWN, (UNKNOWN|IDLE)→AWAKE on send, and AWAKE→IDLE on timer fire
or manual sleep is false: a manual sleep request issued right after init
moves UNKNOWN to IDLE (the spec's own `sleep()` sets IDLE regardless of
the current state), an edge absent from the claimed list. -/
theorem pm_transition_claim_false :
    ¬ (∀ (s : PmState) (e : PmEvent), (pmStep s e).st ≠ s.st →
        claimedEdge s.st (pmStep s e).st = true) := by
  intro h
  have h2 := h (sm_modem_power_mgmt_init (some 5)) PmEvent.sleepReq
    (by decide)
  exact absurd h2 (by decide)

/-- C4 (amended): init sets UNKNOWN; every state change of the Power
State Machine is along one of: UNKNOWN→AWAKE or IDLE→AWAKE on a send,
AWAKE→IDLE on a timer fire or manual sleep request, or UNKNOWN→IDLE on a
manual sleep request (or timer fire) before any command was sent; no
other transition between the three states ever occurs. -/
theorem pm_transitions_amended :
    (∀ i, (sm_modem_power_mgmt_init i).st = PowerState.unknown) ∧
    (∀ (s : PmState) (e : PmEvent), (pmStep s e).st ≠ s.st →
      amendedEdge s.st (pmStep s e).st = true) := by
  constructor
  · intro i
    rfl
  intro s e hch
  cases e with
  | sendAt cmd t w r =>
      cases w <;> cases hst : s.st <;>
        simp_all [pmStep, sm_modem_power_mgmt_send_at, amendedEdge]
  | timerFire b =>
      cases b <;> cases ha : s.timerArmed <;> cases hst : s.st <;>
        simp_all [pmStep, pm_timer_fire, amendedEdge]
  | sleepReq =>
      cases hst : s.st <;>
        simp_all [pmStep, sm_modem_power_mgmt_sleep, amendedEdge]

/-- C4 witness: the UNKNOWN→IDLE change caused by a manual sleep request
right after init is along an amended edge. -/
theorem pm_transitions_amended_witness :
    (sm_modem_power_mgmt_init (some 3)).st = PowerState.unknown ∧
    amendedEdge (sm_modem_power_mgmt_init (some 5)).st
      (pmStep (sm_modem_power_mgmt_init (some 5)) PmEvent.sleepReq).st =
      true :=
  ⟨pm_transitions_amended.1 (some 3),
   pm_transitions_amended.2 (sm_modem_power_mgmt_init (some 5))
     PmEvent.sleepReq (by decide)⟩

/-- C5: after init the power state is UNKNOWN (code 0); the first send
returns the Command Channel's result and leaves the state AWAKE (code 1);
when the inactivity timer then fires with no further activity and a free
channel, the state becomes IDLE (code 2) and exactly one logical sleep
command has been issued through the Command Channel. -/
theorem pm_inactivity_cycle (d : Nat) (cmd : List Char) (t : Nat)
    (wakeOk : Bool) (c : ResponseClassification) :
    sm_modem_power_mgmt_get_state (sm_modem_power_mgmt_init (some d)) = 0 ∧
    (sm_modem_power_mgmt_send_at (sm_modem_power_mgmt_init (some d)) cmd t
        wakeOk (CmdOutcome.classified c)).1 =
      PmResult.channel (CmdOutcome.classified c) ∧
    sm_modem_power_mgmt_get_state
      (sm_modem_power_mgmt_send_at (sm_modem_power_mgmt_init (some d)) cmd t
        wakeOk (CmdOutcome.classified c)).2 = 1 ∧
    sm_modem_power_mgmt_get_state
      (pm_timer_fire
        (sm_modem_power_mgmt_send_at (sm_modem_power_mgmt_init (some d))
          cmd t wakeOk (CmdOutcome.classified c)).2 false) = 2 ∧
    countSleep
      (pm_timer_fire
        (sm_modem_power_mgmt_send_at (sm_modem_power_mgmt_init (some d))
          cmd t wakeOk (CmdOutcome.classified c)).2 false).log = 1 :=
  ⟨rfl, rfl, rfl, rfl, rfl⟩

/-- C6: a send while IDLE performs the wake handshake and the settle
delay strictly before the caller's command is forwarded; the resulting
state is AWAKE regardless of the forwarded command's own outcome; the
Command Channel's result is returned unchanged; and a wake-handshake
failure is returned as the distinct `wakeFailed` error with the command
not forwarded (state and action trace unchanged). -/
theorem pm_send_at_idle (s : PmState) (cmd : List Char) (t : Nat)
    (chRes : CmdOutcome) (hidle : s.st = PowerState.idle) :
    (sm_modem_power_mgmt_send_at s cmd t true chRes).1 =
      PmResult.channel chRes ∧
    ((sm_modem_power_mgmt_send_at s cmd t true chRes).2).st =
      PowerState.awake ∧
    ((sm_modem_power_mgmt_send_at s cmd t true chRes).2).log =
      s.log ++ [PmAction.wakeHandshake, PmAction.settleDelay,
                PmAction.forward cmd t] ∧
    (sm_modem_power_mgmt_send_at s cmd t false chRes).1 =
      PmResult.wakeFailed ∧
    (sm_modem_power_mgmt_send_at s cmd t false chRes).2 = s := by
  refine ⟨?_, ?_, ?_, ?_, ?_⟩ <;>
    simp [sm_modem_power_mgmt_send_at, hidle]

/-- C6 witness: from a concrete IDLE state, a send with a successful wake
returns the channel's busy result unchanged, ends AWAKE, and logs wake
then settle then forward; with a failing wake it returns the distinct
wake failure and changes nothing. -/
theorem pm_send_at_idle_witness :
    (sm_modem_power_mgmt_send_at
        (sm_modem_power_mgmt_sleep (sm_modem_power_mgmt_init none))
        ['A', 'T'] 5 true CmdOutcome.busy).1 =
      PmResult.channel CmdOutcome.busy ∧
    ((sm_modem_power_mgmt_send_at
        (sm_modem_power_mgmt_sleep (sm_modem_power_mgmt_init none))
        ['A', 'T'] 5 true CmdOutcome.busy).2).st = PowerState.awake ∧
    ((sm_modem_power_mgmt_send_at
        (sm_modem_power_mgmt_sleep (sm_modem_power_mgmt_init none))
        ['A', 'T'] 5 true CmdOutcome.busy).2).log =
      (sm_modem_power_mgmt_sleep (sm_modem_power_mgmt_init none)).log ++
        [PmAction.wakeHandshake, PmAction.settleDelay,
         PmAction.forward ['A', 'T'] 5] ∧
    (sm_modem_power_mgmt_send_at
        (sm_modem_power_mgmt_sleep (sm_modem_power_mgmt_init none))
        ['A', 'T'] 5 false CmdOutcome.busy).1 = PmResult.wakeFailed ∧
    (sm_modem_power_mgmt_send_at
        (sm_modem_power_mgmt_sleep (sm_modem_power_mgmt_init none))
        ['A', 'T'] 5 false CmdOutcome.busy).2 =
      sm_modem_power_mgmt_sleep (sm_modem_power_mgmt_init none) :=
  pm_send_at_idle (sm_modem_power_mgmt_sleep (sm_modem_power_mgmt_init none))
    ['A', 'T'] 5 CmdOutcome.busy (by decide)

/-- C7: dispatch visits all registered entries in registration order and
invokes exactly the unpaused matching ones, with no early termination
(it equals the order-preserving filter of unpaused matching entries); an
entry matches exactly when its filter is the wildcard or the line starts
with the filter text; and filter `+CREG` matches `+CREG: 1,5` but not
`+CEREG: 1,5`. -/
theorem monitor_dispatch_spec :
    (∀ (entries : List sm_monitor_entry) (line : List Char),
      monitorDispatch entries line =
        (entries.filter (fun e =>
          decide (e.paused = MON_ACTIVE) && monitorMatches e line)).map
          (fun e => (e.handler, line))) ∧
    (∀ (e : sm_monitor_entry) (line : List Char),
      monitorMatches e line = true ↔
        e.filter = none ∨
          ∃ f, e.filter = some f ∧ textStartsWith line f = true) ∧
    monitorMatches ⟨some cregFilter, 0, MON_ACTIVE⟩ cregNotif = true ∧
    monitorMatches ⟨some cregFilter, 0, MON_ACTIVE⟩ ceregNotif = false := by
  refine ⟨?_, ?_, by decide, by decide⟩
  · intro entries line
    induction entries with
    | nil => rfl
    | cons e es ih =>
        by_cases hc : e.paused = MON_ACTIVE ∧ monitorMatches e line = true
        · simp [monitorDispatch, List.filter_cons, hc.1, hc.2, ih]
        · have hb : (decide (e.paused = MON_ACTIVE) &&
              monitorMatches e line) = false := by
            rcases Decidable.not_and_iff_or_not.mp hc with hna | hnm
            · simp [hna]
            · simp [Bool.and_eq_false_iff]
              intro hpa
              exact Bool.eq_false_iff.mpr hnm
          simp only [monitorDispatch, List.filter_cons, hb]
          rw [if_neg hc]
          simp [ih]
  · intro e line
    cases hf : e.filter with
    | none => simp [monitorMatches, hf]
    | some f => simp [monitorMatches, hf]

/-- C8: pausing and resuming a monitor entry are idempotent; a paused
entry contributes no invocation to dispatch however the notification
matches; and resuming the same entry restores its dispatch (it is
invoked exactly when it matches) without re-registration. -/
theorem monitor_pause_resume_spec (pre post : List sm_monitor_entry)
    (e : sm_monitor_entry) (line : List Char)
    (hp : e.paused = MON_PAUSED) :
    sm_monitor_pause (sm_monitor_pause e) = sm_monitor_pause e ∧
    sm_monitor_resume (sm_monitor_resume e) = sm_monitor_resume e ∧
    monitorDispatch (pre ++ e :: post) line =
      monitorDispatch pre line ++ monitorDispatch post line ∧
    monitorDispatch (pre ++ sm_monitor_resume e :: post) line =
      monitorDispatch pre line ++
        (if monitorMatches e line = true then [(e.handler, line)] else []) ++
        monitorDispatch post line := by
  refine ⟨rfl, rfl, ?_, ?_⟩
  · rw [monitorDispatch_append]
    have hskip : monitorDispatch (e :: post) line =
        monitorDispatch post line := by
      have hne : ¬ (e.paused = MON_ACTIVE ∧ monitorMatches e line = true) := by
        intro hcontra
        rw [hp] at hcontra
        exact absurd hcontra.1 (by decide)
      simp only [monitorDispatch]
      rw [if_neg hne]
      simp
    rw [hskip]
  · rw [monitorDispatch_append]
    have hres : monitorDispatch (sm_monitor_resume e :: post) line =
        (if monitorMatches e line = true then [(e.handler, line)] else []) ++
          monitorDispatch post line := by
      have hmm : monitorMatches (sm_monitor_resume e) line =
          monitorMatches e line := rfl
      have hpz : (sm_monitor_resume e).paused = MON_ACTIVE := rfl
      have hh : (sm_monitor_resume e).handler = e.handler := rfl
      by_cases hm : monitorMatches e line = true
      · simp only [monitorDispatch]
        rw [if_pos ⟨hpz, hmm.trans hm⟩, if_pos hm, hh]
      · simp only [monitorDispatch]
        rw [if_neg (fun hcontra => hm (hmm.symm.trans hcontra.2)),
            if_neg hm]
    rw [hres, List.append_assoc]

/-- C8 witness: a concrete paused entry with filter `+CREG` is skipped by
dispatch of `+CREG: 1,5`, and after resume it is invoked again. -/
theorem monitor_pause_resume_spec_witness :
    monitorDispatch ([] ++ (⟨some cregFilter, 7, MON_PAUSED⟩ :
        sm_monitor_entry) :: []) cregNotif =
      monitorDispatch [] cregNotif ++ monitorDispatch [] cregNotif ∧
    monitorDispatch ([] ++
        sm_monitor_resume ⟨some cregFilter, 7, MON_PAUSED⟩ :: []) cregNotif =
      monitorDispatch [] cregNotif ++
        (if monitorMatches (⟨some cregFilter, 7, MON_PAUSED⟩ :
            sm_monitor_entry) cregNotif = true
         then [((7 : Nat), cregNotif)] else []) ++
        monitorDispatch [] cregNotif :=
  ⟨(monitor_pause_resume_spec [] [] ⟨some cregFilter, 7, MON_PAUSED⟩
      cregNotif (by decide)).2.2.1,
   (monitor_pause_resume_spec [] [] ⟨some cregFilter, 7, MON_PAUSED⟩
      cregNotif (by decide)).2.2.2⟩

/-- C10: the response buffer delivered through the registered data
handler never exceeds `SM_AT_CMD_RESPONSE_MAX_LEN`, which is 2100 bytes:
from any buffer within the bound, accumulating any byte stream stays
within the bound, and accumulation from the empty buffer is always
within it. -/
theorem response_length_bounded (bytes buf : List Char)
    (h : buf.length ≤ SM_AT_CMD_RESPONSE_MAX_LEN) :
    (bytes.foldl responseAppend buf).length ≤ SM_AT_CMD_RESPONSE_MAX_LEN ∧
    (responseAccumulate bytes).length ≤ SM_AT_CMD_RESPONSE_MAX_LEN ∧
    SM_AT_CMD_RESPONSE_MAX_LEN = 2100 := by
  have hstep : ∀ (l : List Char) (b : Char),
      l.length ≤ SM_AT_CMD_RESPONSE_MAX_LEN →
      (responseAppend l b).length ≤ SM_AT_CMD_RESPONSE_MAX_LEN := by
    intro l b hl
    unfold responseAppend
    split
    · rename_i hlt
      simp only [List.length_append, List.length_singleton]
      omega
    · exact hl
  have hfold : ∀ (bs l : List Char),
      l.length ≤ SM_AT_CMD_RESPONSE_MAX_LEN →
      (bs.foldl responseAppend l).length ≤ SM_AT_CMD_RESPONSE_MAX_LEN := by
    intro bs
    induction bs with
    | nil => intro l hl; exact hl
    | cons b bs ih => intro l hl; exact ih (responseAppend l b) (hstep l b hl)
  exact ⟨hfold bytes buf h, hfold bytes [] (by simp), rfl⟩

/-- C10 witness: accumulating the bytes of `OK` from the empty buffer
stays within the 2100-byte bound. -/
theorem response_length_bounded_witness :
    (List.foldl responseAppend [] ['O', 'K']).length ≤
      SM_AT_CMD_RESPONSE_MAX_LEN ∧
    (responseAccumulate ['O', 'K']).length ≤ SM_AT_CMD_RESPONSE_MAX_LEN ∧
    SM_AT_CMD_RESPONSE_MAX_LEN = 2100 :=
  response_length_bounded ['O', 'K'] [] (by decide)

end NrfModule
